import Mathlib

/-!
Verification of the viticulture suitability pipeline
(`viticulture_tool.py`, `processAlgorithm`) against its specification.

The pipeline is shallowly embedded: raster-calculator expressions become
per-cell functions on `ℚ` (QGIS raster cells are numeric; comparisons and
`AND` yield 1/0), the vector stage becomes list processing over an explicit
feature record, the edit session becomes an explicit state transformer with
a fault parameter, and the feedback channel becomes a trace of events.
Python's float arithmetic in the progress computation is embedded exactly as
IEEE-754 binary64 round-to-nearest-even on `ℚ`.
-/

namespace Viticulture

/-! ### Raster-calculator cell semantics

The QGIS raster calculator evaluates an expression per cell; a comparison
yields 1 when it holds and 0 otherwise, and `AND` treats nonzero as true and
yields 1/0.  Cell values are modelled as rationals. -/

/-- Value of a raster-calculator comparison `a = b`: 1 if true, 0 if false. -/
def qEq (a b : ℚ) : ℚ := if a = b then 1 else 0

/-- Value of a raster-calculator comparison `a > b`. -/
def qGt (a b : ℚ) : ℚ := if b < a then 1 else 0

/-- Value of a raster-calculator comparison `a < b`. -/
def qLt (a b : ℚ) : ℚ := if a < b then 1 else 0

/-- Value of a raster-calculator comparison `a <= b`. -/
def qLe (a b : ℚ) : ℚ := if a ≤ b then 1 else 0

/-- Value of raster-calculator `AND`: nonzero operands are truthy. -/
def qAnd (a b : ℚ) : ℚ := if a ≠ 0 ∧ b ≠ 0 then 1 else 0

/-- A raster is a grid of numeric cells, indexed by (row, column). -/
def Raster : Type := ℤ × ℤ → ℚ

/-- Step 2 of `processAlgorithm`, per cell: the land-use filter expression
`("land_use@1" > 1 AND "land_use@1" < 9) * "land_use@1"`. -/
def suitLuCell (v : ℚ) : ℚ := qAnd (qGt v 1) (qLt v 9) * v

/-- Step 4 of `processAlgorithm`, per cell: the slope filter expression
`("slope@1" <= 20) * 1`. -/
def suitSlopeCell (s : ℚ) : ℚ := qLe s 20 * 1

/-- Step 5–7 of `processAlgorithm`, per cell: the composite expression
`("suit_slope@1" =1 AND "suit_lu@1">0 AND "urban@1"=1 AND
"existing_vineyard@1"=1)*1`. -/
def resultLuCell (sl lu ur ev : ℚ) : ℚ :=
  qAnd (qAnd (qAnd (qEq sl 1) (qGt lu 0)) (qEq ur 1)) (qEq ev 1) * 1

/-- The composite raster `result_lu.tif`, applied cellwise to the four
aligned input rasters. -/
def resultLuRaster (sl lu ur ev : Raster) : Raster :=
  fun p => resultLuCell (sl p) (lu p) (ur p) (ev p)

/-- The filtered land-use raster `suit_lu.tif`, applied cellwise. -/
def suitLuRaster (lu : Raster) : Raster := fun p => suitLuCell (lu p)

/-- The slope mask raster `suit_slope.tif`, applied cellwise. -/
def suitSlopeRaster (s : Raster) : Raster := fun p => suitSlopeCell (s p)

/-! ### C1–C3: the three raster algebra stages -/

/-- **C1.** For every cell position, the composite exclusion raster is 1
iff the slope mask is 1, the land-use mask is positive, the urban mask is 1
and the existing-vineyard mask is 1; otherwise it is 0. -/
theorem composite_cell_iff (sl lu ur ev : Raster) (p : ℤ × ℤ) :
    (resultLuRaster sl lu ur ev p = 1 ↔
      sl p = 1 ∧ 0 < lu p ∧ ur p = 1 ∧ ev p = 1) ∧
    (resultLuRaster sl lu ur ev p = 1 ∨ resultLuRaster sl lu ur ev p = 0) := by
  unfold resultLuRaster resultLuCell qAnd qEq qGt
  by_cases h1 : sl p = 1 <;> by_cases h2 : 0 < lu p <;>
    by_cases h3 : ur p = 1 <;> by_cases h4 : ev p = 1 <;>
    simp [h1, h2, h3, h4]

/-- **C2.** The land-use filter output equals the input value `v` when
`1 < v < 9` and 0 otherwise; in particular every nonzero output cell
carries the original class code (which is greater than 1, hence not 1). -/
theorem suitLu_cases (v : ℚ) :
    suitLuCell v = (if 1 < v ∧ v < 9 then v else 0) ∧
    (suitLuCell v ≠ 0 → suitLuCell v = v ∧ suitLuCell v ≠ 1) := by
  unfold suitLuCell qAnd qGt qLt
  by_cases h1 : 1 < v <;> by_cases h2 : v < 9 <;> simp [h1, h2]
  intro _ hv
  rw [hv] at h1
  exact lt_irrefl 1 h1

/-- **C3.** The slope mask cell is 1 when the slope is at most 20 and 0 when
it exceeds 20; the boundary slope 20 maps to 1. -/
theorem suitSlope_cases (s : ℚ) :
    (s ≤ 20 → suitSlopeCell s = 1) ∧ (20 < s → suitSlopeCell s = 0) ∧
    suitSlopeCell 20 = 1 := by
  unfold suitSlopeCell qLe
  refine ⟨fun h => by simp [h], fun h => by simp [not_le.mpr h], by norm_num⟩

/-- Witness for `suitLu_cases` at the concrete class code 5. -/
theorem suitLu_cases_witness :
    suitLuCell 5 = (if 1 < (5 : ℚ) ∧ (5 : ℚ) < 9 then 5 else 0) ∧
    (suitLuCell 5 ≠ 0 → suitLuCell 5 = 5 ∧ suitLuCell 5 ≠ 1) :=
  suitLu_cases 5

/-- Witness for `suitSlope_cases` at the concrete slope 20. -/
theorem suitSlope_cases_witness :
    ((20 : ℚ) ≤ 20 → suitSlopeCell 20 = 1) ∧
    (20 < (20 : ℚ) → suitSlopeCell 20 = 0) ∧ suitSlopeCell 20 = 1 :=
  suitSlope_cases 20

/-! ### Vector stage: features, planar area, selection and export

`gdal:polygonize` produces polygons with an integer `DN` attribute; the
area session writes an `area` attribute; `selectByExpression` with
`'$area > 40000 and DN=1'` followed by `native:saveselectedfeatures`
exports exactly the selected subset. -/

/-- A polygon ring: vertices in order, implicitly closed. -/
abbrev Ring : Type := List (ℚ × ℚ)

/-- Cross term of the shoelace formula for one edge. -/
def cross (p q : ℚ × ℚ) : ℚ := p.1 * q.2 - q.1 * p.2

/-- Sum of shoelace cross terms along the ring, closing back to `first`. -/
def ringSumFrom (first : ℚ × ℚ) : List (ℚ × ℚ) → ℚ
  | [] => 0
  | [p] => cross p first
  | p :: q :: rest => cross p q + ringSumFrom first (q :: rest)

/-- Shoelace sum of a ring. -/
def ringSum : Ring → ℚ
  | [] => 0
  | p :: rest => ringSumFrom p (p :: rest)

/-- Planar area of a polygon ring (the QGIS `$area` of the feature's live
geometry, with planar measurement). -/
def planarArea (r : Ring) : ℚ := |ringSum r| / 2

/-- A vector feature of the polygonized layer: the `DN` attribute, the
polygon geometry, and the `area` attribute (absent until the area field is
populated). -/
structure Feature where
  dn : ℤ
  geom : Ring
  area : Option ℚ
deriving DecidableEq

/-- Step 9.2 of `processAlgorithm`: the per-feature loop evaluates `$area`
on each feature's geometry and writes it into the `area` attribute. -/
def writeArea (f : Feature) : Feature := { f with area := some (planarArea f.geom) }

/-- The area-augmented layer: every feature of the vectorized layer with its
`area` attribute written (the committed result of step 9). -/
def areaStage (fs : List Feature) : List Feature := fs.map writeArea

/-- Step 10 of `processAlgorithm`: `selectByExpression('$area > 40000 and
DN=1')` followed by `native:saveselectedfeatures` keeps exactly the features
satisfying the predicate. -/
def exportLayer (fs : List Feature) : List Feature :=
  (areaStage fs).filter (fun f => 40000 < planarArea f.geom ∧ f.dn = 1)

/-- An axis-aligned square of side `s` anchored at the origin. -/
def squareRing (s : ℚ) : Ring := [(0, 0), (s, 0), (s, s), (0, s)]

/-- **C4.** The exported layer holds exactly the features of the
area-augmented layer whose `area` attribute exceeds 40000 and whose `DN`
equals 1; a `DN = 1` feature that is a square of side 200 (area exactly
40000) is excluded. -/
theorem exportLayer_mem (fs : List Feature) (f : Feature) :
    (f ∈ exportLayer fs ↔
      f ∈ areaStage fs ∧ 40000 < f.area.getD 0 ∧ f.dn = 1) ∧
    exportLayer [⟨1, squareRing 200, none⟩] = [] := by
  constructor
  · unfold exportLayer
    rw [List.mem_filter]
    constructor
    · rintro ⟨hmem, hpred⟩
      simp only [decide_eq_true_eq] at hpred
      refine ⟨hmem, ?_, hpred.2⟩
      obtain ⟨g, _, rfl⟩ := List.mem_map.mp hmem
      simpa [writeArea] using hpred.1
    · rintro ⟨hmem, harea, hdn⟩
      refine ⟨hmem, ?_⟩
      simp only [decide_eq_true_eq]
      obtain ⟨g, _, rfl⟩ := List.mem_map.mp hmem
      exact ⟨by simpa [writeArea] using harea, hdn⟩
  · norm_num [exportLayer, areaStage, writeArea, squareRing, planarArea,
      ringSum, ringSumFrom, cross, List.filter]

/-! ### Progress reporting in the per-feature loop

Step 9.2: `total = 100.0 / featureCount() if featureCount() else 0` and
`feedback.setProgress(int(current * total))`.  Two models are used: an
exact-arithmetic one (floats idealized as rationals) and a faithful
IEEE-754 binary64 one, where every float operation rounds to the nearest
representable value, ties to even. -/

/-- The progress scale `total`, exact-arithmetic model of
`100.0 / featureCount() if featureCount() else 0`. -/
def progressScale (n : ℕ) : ℚ := if n = 0 then 0 else 100 / n

/-- The reported progress `int(current * total)`, exact-arithmetic model
(the product is nonnegative, so `int` truncation is the floor). -/
def progressExact (n i : ℕ) : ℤ := ⌊(i : ℚ) * progressScale n⌋

/-- Largest `k ≤ fuel` with `b * 2^k ≤ a` (binary exponent search). -/
def epos : ℕ → ℕ → ℕ → ℕ
  | 0, _, _ => 0
  | fuel + 1, a, b => if 2 * b ≤ a then epos fuel a (2 * b) + 1 else 0

/-- Smallest `k ≤ fuel` with `b ≤ a * 2^k` (binary exponent search). -/
def eneg : ℕ → ℕ → ℕ → ℕ
  | 0, _, _ => 0
  | fuel + 1, a, b => if b ≤ a then 0 else eneg fuel (2 * a) b + 1

/-- Truncation of a rational toward zero, Python's `int()`. -/
def ratTrunc (q : ℚ) : ℤ := q.num / q.den

/-- A rational from a natural number. -/
def natToRat (n : ℕ) : ℚ := mkRat n 1

/-- Round the fraction `A / B` (with `B ≠ 0`) to the nearest natural
number, ties to the even one (IEEE-754 default rounding of a scaled
significand). -/
def rne (A B : ℕ) : ℕ :=
  if 2 * (A % B) < B then A / B
  else if B < 2 * (A % B) then A / B + 1
  else if A / B % 2 = 0 then A / B else A / B + 1

/-- Round a positive rational to the nearest IEEE-754 binary64 value:
compute the binary exponent `e` with `2^e ≤ q < 2^(e+1)`, scale `q` by
`2^(52-e)` into the significand range `[2^52, 2^53)`, round to nearest with
ties to even, and scale back (the doubles involved here are all normal and
far from overflow). -/
def rnd64Pos (q : ℚ) : ℚ :=
  let a := q.num.toNat
  let b := q.den
  let e : ℤ := if b ≤ a then (epos a a b : ℤ) else -(eneg b a b : ℤ)
  let m : ℕ :=
    if e ≤ 52 then rne (a * 2 ^ (52 - e).toNat) b else rne a (b * 2 ^ (e - 52).toNat)
  if 52 ≤ e then mkRat (m * 2 ^ (e - 52).toNat) 1 else mkRat m (2 ^ (52 - e).toNat)

/-- Round a rational to the nearest IEEE-754 binary64 value. -/
def rnd64 (q : ℚ) : ℚ :=
  if q = 0 then 0 else if q < 0 then -rnd64Pos (-q) else rnd64Pos q

/-- The reported progress under IEEE-754 binary64 semantics:
`int(current * total)` where `total` is the double `100.0 / n`, the int
`current` converts to double exactly (it is below 2^53), the product is
rounded again, and `int` truncates the nonnegative result. -/
def progressFloat (n i : ℕ) : ℤ :=
  ratTrunc (rnd64 (natToRat i * rnd64 (natToRat 100 / natToRat n)))

/-- Step 9–10 of `processAlgorithm` as a step trace plus result: add the
area field, write each feature's area in the loop, then commit, select
and export unconditionally. -/
def stage5 (fs : List Feature) : List String × List Feature :=
  (["add_area_field"] ++ fs.map (fun _ => "write_area") ++
    ["commit", "select", "export"], exportLayer fs)

/-! ### C9, C10: loop safety and progress invariants -/

/-- **C9.** With zero vectorized features the area stage is total and safe:
the progress scale is 0 (the guard avoids dividing 100 by the feature
count), the loop writes nothing, and commit, selection and export still
run, producing an empty output layer. -/
theorem empty_layer_safe :
    progressScale 0 = 0 ∧
    stage5 [] = (["add_area_field", "commit", "select", "export"], []) :=
  ⟨rfl, rfl⟩

/-- **C10 (amended).** In the exact-arithmetic model the loop reports
`⌊i * (100 / n)⌋` for `i = 0, …, n-1`: each reported value lies in
`[0, 100)` and the sequence is nondecreasing, so 100 is never reported. -/
theorem progress_bounds (n i : ℕ) (h1 : 0 < n) (h2 : i < n) :
    progressExact n i = ⌊(100 * i : ℚ) / n⌋ ∧
    0 ≤ progressExact n i ∧ progressExact n i < 100 ∧
    ∀ j, j ≤ i → progressExact n j ≤ progressExact n i := by
  have hn0 : n ≠ 0 := Nat.pos_iff_ne_zero.mp h1
  have hnq : (0 : ℚ) < n := by exact_mod_cast h1
  have hscale : progressScale n = 100 / n := by simp [progressScale, hn0]
  refine ⟨?_, ?_, ?_, ?_⟩
  · rw [progressExact, hscale]
    congr 1
    ring
  · exact Int.floor_nonneg.mpr (by rw [hscale]; positivity)
  · rw [progressExact, hscale]
    have hi : (i : ℚ) < n := by exact_mod_cast h2
    have : (i : ℚ) * (100 / n) < 100 := by
      calc (i : ℚ) * (100 / n) < n * (100 / n) :=
            mul_lt_mul_of_pos_right hi (by positivity)
        _ = 100 := by field_simp
    exact Int.floor_lt.mpr (by exact_mod_cast this)
  · intro j hj
    apply Int.floor_mono
    apply mul_le_mul_of_nonneg_right _ _
    · exact_mod_cast hj
    · rw [hscale]; positivity

/-- Witness for `progress_bounds` at 5 features, iteration 3. -/
theorem progress_bounds_witness :
    progressExact 5 3 = ⌊(100 * 3 : ℚ) / 5⌋ ∧
    0 ≤ progressExact 5 3 ∧ progressExact 5 3 < 100 ∧
    ∀ j, j ≤ 3 → progressExact 5 j ≤ progressExact 5 3 :=
  progress_bounds 5 3 (by norm_num) (by norm_num)

/-- **C10 (counterexample).** Under the code's IEEE-754 binary64
arithmetic the loop at `n = 194`, `i = 97` reports 49, while the claimed
formula `int(i * 100 / n)` gives 50 (the exact-arithmetic value): the
reported values are not exactly `int(i * 100 / n)`. -/
theorem progress_float_mismatch :
    progressFloat 194 97 = 49 ∧ progressExact 194 97 = 50 := by
  constructor
  · with_unfolding_all decide
  · have : ((97 : ℕ) : ℚ) * progressScale 194 = 50 := by
      norm_num [progressScale]
    rw [progressExact, this]
    exact Int.floor_intCast 50

/-! ### The edit session (step 9)

`startEditing()` opens an edit session; `updateFeature` while editing goes
into the session's edit buffer and reaches the underlying store only at
`commitChanges()`, while a `dataProvider()` call such as
`addAttributes` applies to the underlying store immediately, outside the
buffer.  The session is modelled as a transformer of the persisted provider
state with a fault parameter injecting a failure into the per-feature
loop. -/

/-- The persisted (on-disk) state of the polygon layer's provider: whether
the schema has the `area` field, and each feature's stored `area` value
(`none` while the field is absent or unset). -/
structure Provider where
  hasAreaField : Bool
  areas : List (Option ℚ)
deriving DecidableEq

/-- Step 9 of `processAlgorithm` with a fault parameter.  In source order:
`startEditing()`; `dataProvider().addAttributes([QgsField("area", …)])`,
which alters the provider directly and at once; the per-feature loop whose
`updateFeature` calls are buffered; `commitChanges()`, which flushes the
buffer.  `failAt = some i` with `i` below the feature count makes the
`i`-th per-feature write fail: the run stops there, the buffered edits
never reach the provider, but the schema change has already been applied. -/
def runAreaSession (geoms : List Ring) (init : Provider) (failAt : Option ℕ) :
    Provider :=
  let afterSchema : Provider := { init with hasAreaField := true }
  match failAt with
  | some i =>
    if i < geoms.length then afterSchema
    else { afterSchema with areas := geoms.map (fun g => some (planarArea g)) }
  | none => { afterSchema with areas := geoms.map (fun g => some (planarArea g)) }

/-! ### C5: atomicity of the area stage -/

/-- **C5 (counterexample).** One feature, pre-edit schema without the area
field, and a failing write of feature 0: the run abandons the session, yet
the persisted schema ends with the area field present — the layer does not
retain its pre-edit schema, so the stage is not atomic as claimed. -/
theorem area_session_schema_leak :
    (runAreaSession [squareRing 1] ⟨false, [none]⟩ (some 0)).hasAreaField = true ∧
    (⟨false, [none]⟩ : Provider).hasAreaField = false :=
  ⟨rfl, rfl⟩

/-- **C5 (amended).** On a successful run every feature's persisted area
equals its planar geometry area, and a failed per-feature write leaves all
persisted attribute values unchanged; but the area-field schema addition is
made directly on the data provider and persists even when the session is
abandoned. -/
theorem area_session_amended (geoms : List Ring) (init : Provider) (i : ℕ)
    (h : i < geoms.length) :
    (runAreaSession geoms init (some i)).hasAreaField = true ∧
    (runAreaSession geoms init (some i)).areas = init.areas ∧
    (runAreaSession geoms init none).areas =
      geoms.map (fun g => some (planarArea g)) ∧
    (runAreaSession geoms init none).hasAreaField = true := by
  refine ⟨?_, ?_, rfl, rfl⟩ <;> simp [runAreaSession, h]

/-- Witness for `area_session_amended`: one square feature, failure at
index 0. -/
theorem area_session_amended_witness :
    (runAreaSession [squareRing 2] ⟨false, [none]⟩ (some 0)).hasAreaField = true ∧
    (runAreaSession [squareRing 2] ⟨false, [none]⟩ (some 0)).areas = [none] ∧
    (runAreaSession [squareRing 2] ⟨false, [none]⟩ none).areas =
      [squareRing 2].map (fun g => some (planarArea g)) ∧
    (runAreaSession [squareRing 2] ⟨false, [none]⟩ none).hasAreaField = true :=
  area_session_amended [squareRing 2] ⟨false, [none]⟩ 0 (by norm_num)

/-! ### Input resolution (step 1.2)

`chosen_file = parameterDefinition(…).valueAsPythonString(…)` renders the
raster's source path as a quoted Python string literal, and
`data_path = os.path.dirname(chosen_file[1:]) + '/'` strips only the
leading quote; the trailing quote rides on the basename and is discarded by
`dirname`. -/

/-- The single-quote character. -/
def sq : Char := Char.ofNat 39

/-- The value rendered by `valueAsPythonString`: the source path wrapped in
single quotes. -/
def quoted (path : List Char) : List Char := sq :: path ++ [sq]

/-- `os.path.dirname` for POSIX paths: the prefix up to the last separator,
then trailing separators stripped unless that prefix is all separators. -/
def dirname (p : List Char) : List Char :=
  let head := (p.reverse.dropWhile (· != '/')).reverse
  if !head.isEmpty && head.any (· != '/') then
    (head.reverse.dropWhile (· == '/')).reverse
  else head

/-- Step 1.2 of `processAlgorithm`:
`data_path = os.path.dirname(chosen_file[1:]) + '/'`. -/
def dataPath (sourcePath : List Char) : List Char :=
  dirname ((quoted sourcePath).drop 1) ++ ['/']

/-- Follows the spec's words (§4.1), for comparison with `dataPath`:
resolve the containing directory with a trailing separator, failing
(`none`, the `ConfigurationError`) when the source cannot be resolved to a
directory — here, when it has no separator to split on. -/
def dataPathSpec (sourcePath : List Char) : Option (List Char) :=
  if sourcePath.any (· == '/') then some (dirname sourcePath ++ ['/']) else none

/-- Dropping a block of non-separator characters does not change where the
separator scan stops. -/
theorem dropWhile_ne_sep_append (l₁ l₂ : List Char)
    (h : ∀ c ∈ l₁, (c != '/') = true) :
    (l₁ ++ l₂).dropWhile (· != '/') = l₂.dropWhile (· != '/') := by
  induction l₁ with
  | nil => rfl
  | cons c t ih =>
      have hc : (c != '/') = true := h c (List.mem_cons_self c t)
      have ht : ∀ x ∈ t, (x != '/') = true := fun x hx => h x (List.mem_cons_of_mem c hx)
      simp only [List.cons_append, List.dropWhile_cons, hc, if_true]
      exact ih ht

/-! ### C6: input resolution -/

/-- **C6 (amended).** For a source path `dir/basename` whose directory part
ends in a non-separator and whose basename holds no separator, `data_path`
is the containing directory with a trailing separator: stripping only the
leading quote of the quoted parameter string is harmless because the
trailing quote rides on the basename, which `dirname` discards. -/
theorem dataPath_amended (d0 : List Char) (c : Char) (b : List Char)
    (hc : (c != '/') = true) (hbs : ∀ x ∈ b, (x != '/') = true) :
    dataPath ((d0 ++ [c]) ++ '/' :: b) = (d0 ++ [c]) ++ ['/'] := by
  have hcq : (c == '/') = false := by
    cases hcc : c == '/' with
    | false => rfl
    | true => rw [bne, hcc] at hc; exact absurd hc (by decide)
  have hdrop : (quoted ((d0 ++ [c]) ++ '/' :: b)).drop 1 =
      ((d0 ++ [c]) ++ '/' :: b) ++ [sq] := rfl
  rw [dataPath, hdrop]
  have h1 : (((d0 ++ [c]) ++ '/' :: b) ++ [sq]).reverse =
      (sq :: b.reverse) ++ '/' :: (d0 ++ [c]).reverse := by
    simp [List.reverse_append]
  have h2 : ((sq :: b.reverse) ++ '/' :: (d0 ++ [c]).reverse).dropWhile (· != '/') =
      '/' :: (d0 ++ [c]).reverse := by
    rw [dropWhile_ne_sep_append]
    · rw [List.dropWhile_cons]
      norm_num
    · intro x hx
      rcases List.mem_cons.mp hx with h | h
      · subst h; decide
      · exact hbs x (List.mem_reverse.mp h)
  rw [dirname]
  simp only [h1, h2, List.reverse_cons, List.reverse_reverse]
  have hcond : (!(d0 ++ [c] ++ ['/']).isEmpty &&
      (d0 ++ [c] ++ ['/']).any (· != '/')) = true := by
    refine (Bool.and_eq_true _ _).mpr ⟨by simp, List.any_eq_true.mpr ⟨c, by simp, hc⟩⟩
  rw [if_pos hcond]
  have h3 : (d0 ++ [c] ++ ['/']).reverse = '/' :: c :: d0.reverse := by simp
  rw [h3]
  simp [List.dropWhile_cons, hcq]

/-- Witness for `dataPath_amended` on the concrete path `data/land_use.tif`. -/
theorem dataPath_amended_witness :
    dataPath (("dat".toList ++ ['a']) ++ '/' :: "land_use.tif".toList) =
      ("dat".toList ++ ['a']) ++ ['/'] :=
  dataPath_amended "dat".toList 'a' "land_use.tif".toList (by decide) (by decide)

/-- **C6 (counterexample).** A source not resolvable to a directory (here a
separator-free provider string) must per the claim fail with
`ConfigurationError`; the code has no such error and silently produces the
degenerate path `/`. -/
theorem dataPath_no_config_error :
    dataPathSpec "memory".toList = none ∧ dataPath "memory".toList = ['/'] := by
  constructor <;> decide

/-! ### Failure propagation across the stages (steps 2–10)

`processAlgorithm` contains no `try`/`except` and no retry: each external
stage call either succeeds or raises, and a raised exception propagates to
the caller unchanged, ending the run.  The run is modelled over the seven
external calls in source order — land-use filter, slope from DEM, slope
filter, composite, polygonize, area session, select-and-export — with an
environment assigning each stage its engine outcome. -/

/-- Run the stages in `ks` in order against engine outcomes `fails`
(`some e` = the engine raises `e`): the executed stages and the surfaced
error.  A raise stops the run at once and surfaces `e` verbatim. -/
def runSeq (fails : ℕ → Option String) : List ℕ → List ℕ × Option String
  | [] => ([], none)
  | k :: rest =>
    match fails k with
    | some e => ([k], some e)
    | none =>
      let r := runSeq fails rest
      (k :: r.1, r.2)

/-- One whole run of `processAlgorithm` over its seven external calls. -/
def runPipeline (fails : ℕ → Option String) : List ℕ × Option String :=
  runSeq fails (List.range 7)

/-- The output destination is written by the terminal export call (stage 6)
alone, so it is populated exactly when the whole run succeeded. -/
def outputPopulated (fails : ℕ → Option String) : Bool :=
  (runPipeline fails).2.isNone

/-- `pat` occurs as a contiguous segment of `s`. -/
def segStarts : List Char → List Char → Bool
  | [], _ => true
  | _ :: _, [] => false
  | a :: as, b :: bs => a == b && segStarts as bs

/-- Whether `pat` occurs anywhere inside `s`. -/
def containsSeg (pat : List Char) : List Char → Bool
  | [] => segStarts pat []
  | c :: rest => segStarts pat (c :: rest) || containsSeg pat rest

/-- Engine outcomes for the DEM-missing scenario: the slope derivation
(stage 1) raises the engine's own message; every other call would
succeed. -/
def demMissingFails : ℕ → Option String :=
  fun k => if k = 1 then some "Unable to execute algorithm: could not load source layer for INPUT" else none

/-! ### C7: abort-on-failure -/

/-- **C7 (amended).** If the first engine failure is at stage `k`, the run
executes exactly stages `0..k` (each once, so no retry), surfaces the
engine's error verbatim, and leaves the output destination unpopulated;
the code attaches no stage name or artifact path to the surfaced error. -/
theorem pipeline_abort (fails : ℕ → Option String) (k : ℕ) (e : String)
    (hk : k < 7) (hf : fails k = some e) (hprev : ∀ j, j < k → fails j = none) :
    (runPipeline fails).1 = List.range (k + 1) ∧
    (runPipeline fails).2 = some e ∧
    outputPopulated fails = false := by
  have hrange : List.range 7 = [0, 1, 2, 3, 4, 5, 6] := rfl
  interval_cases k <;>
    refine ⟨?_, ?_, ?_⟩ <;>
      simp_all [runPipeline, runSeq, outputPopulated, List.range_succ]

/-- Witness for `pipeline_abort`: the DEM-missing run fails at stage 1
(slope derivation), so stages 0 and 1 ran, the engine error surfaced, and
the output stayed unpopulated. -/
theorem pipeline_abort_witness :
    (runPipeline demMissingFails).1 = List.range 2 ∧
    (runPipeline demMissingFails).2 =
      some "Unable to execute algorithm: could not load source layer for INPUT" ∧
    outputPopulated demMissingFails = false :=
  pipeline_abort demMissingFails 1 _ (by norm_num) rfl
    (fun j hj => by interval_cases j; rfl)

/-- **C7 (counterexample).** In the DEM-missing run the surfaced error is
the engine's message verbatim; it names neither the failing stage
(`slope`) nor the artifact path involved (`DEM.tif`), so the claim that
the surfaced error carries the stage name and artifact path fails. -/
theorem pipeline_error_lacks_stage_name :
    (runPipeline demMissingFails).2 =
      some "Unable to execute algorithm: could not load source layer for INPUT" ∧
    containsSeg "slope".toList
      "Unable to execute algorithm: could not load source layer for INPUT".toList
        = false ∧
    containsSeg "DEM.tif".toList
      "Unable to execute algorithm: could not load source layer for INPUT".toList
        = false := by
  refine ⟨rfl, ?_, ?_⟩ <;> decide

/-! ### C8: cancellation polling -/

/-- A feedback interaction of `processAlgorithm`: an info message, a
progress value, or a poll of the cooperative stop-requested check. -/
inductive FbEvent where
  | info : String → FbEvent
  | progress : ℤ → FbEvent
  | cancelPoll : FbEvent
deriving DecidableEq

/-- The full sequence of feedback interactions of a run whose vectorized
layer has `n` features, in source order: the `pushInfo` calls of steps
1.2–9.1, the per-feature `setProgress` values of step 9.2, and the
`pushInfo` calls of step 10.  `feedback.isCanceled()` is never called. -/
def feedbackTrace (n : ℕ) : List FbEvent :=
  [FbEvent.info "Data path", FbEvent.info "filtering land use",
   FbEvent.info "making slope", FbEvent.info "filtering slope",
   FbEvent.info "Filter land use to exclude residential and vineyard",
   FbEvent.info "landuse", FbEvent.info "slope",
   FbEvent.info "existing_vineyard", FbEvent.info "urban",
   FbEvent.info "Adding area field"] ++
  (List.range n).map (fun i => FbEvent.progress (progressExact n i)) ++
  [FbEvent.info "Select area that greater than 4 hectares",
   FbEvent.info "Exporting data", FbEvent.info "Adding to map"]

/-- The number of stop-requested polls in a feedback trace. -/
def cancelPolls (t : List FbEvent) : ℕ :=
  t.countP (fun e => decide (e = FbEvent.cancelPoll))

/-- **C8 (counterexample).** With two vectorized features the claim
requires a stop-requested poll between every pair of consecutive stages and
on both loop iterations; the run performs none at all. -/
theorem no_cancel_poll_concrete : cancelPolls (feedbackTrace 2) = 0 := by
  decide

/-- **C8 (amended).** For every feature count, the pipeline never polls the
stop-requested check: its feedback interactions are info messages and
progress values only, so a cancellation request stops no stage and no
per-feature work. -/
theorem no_cancel_poll (n : ℕ) : cancelPolls (feedbackTrace n) = 0 := by
  simp [cancelPolls, feedbackTrace, List.countP_append, List.countP_map,
    List.countP_cons, Function.comp]

end Viticulture
